import Mathlib

/-!
Verification development for the school-scheduler solver
(`backend/solver.py`).  The Python source is shallowly embedded below:
pure functions become Lean functions, Python dicts become association
lists (preserving insertion/iteration order where the source relies on
it), Python floats used in the ordering heuristic become exact
rationals, and the imperative loops become folds.  The external CP-SAT
solving service is not reimplemented; instead the constraint model the
source emits is embedded as a satisfaction predicate over assignments.
-/

namespace Solver

/-! ## Constants (`DAYS`, `BLOCKS`, slot utilities) -/

def DAYS : List String := ["Mon", "Tues", "Wed", "Thurs", "Fri"]

def BLOCKS : List Nat := [1, 2, 3, 4, 5]

def NUM_SLOTS : Nat := 25

/-- Source `slot_to_day`: `slot // 5`. -/
def slot_to_day (slot : Nat) : Nat := slot / 5

/-- Source `slot_to_block`: `slot % 5`. -/
def slot_to_block (slot : Nat) : Nat := slot % 5

/-- Source `day_block_to_slot`: `day_idx * 5 + block_idx`. -/
def day_block_to_slot (day_idx block_idx : Nat) : Nat := day_idx * 5 + block_idx

/-! ## Python string helpers

The source uses `str.strip()`, `str.lower()` and substring tests.
`String.trim`/`String.toLower` from core do not reduce well inside the
kernel, so the same operations are defined here directly over the
character data of the string. -/

def pyStrip (s : String) : String :=
  ⟨((s.data.dropWhile Char.isWhitespace).reverse.dropWhile Char.isWhitespace).reverse⟩

def pyLower (s : String) : String := ⟨s.data.map Char.toLower⟩

/-- Python `needle in hay` on character lists (Python substring containment). -/
def listContainsSub (hay needle : List Char) : Bool :=
  match hay with
  | [] => needle.isEmpty
  | _ :: t => needle.isPrefixOf hay || listContainsSub t needle

def strContainsSub (hay needle : String) : Bool :=
  listContainsSub hay.data needle.data

/-! ## Rules -/

/-- Config dict of a scheduling rule.  Only the keys the solver reads are
modelled (`grades`, `allow_full_time`, `allow_part_time`); `Option`
captures an absent key. -/
structure RuleConfig where
  grades : List String := []
  allow_full_time : Option Bool := none
  allow_part_time : Option Bool := none
deriving DecidableEq

/-- A rule dict: `rule_key` / `enabled` / `config` entries, each possibly
absent. -/
structure Rule where
  rule_key : Option String := none
  enabled : Option Bool := none
  config : Option RuleConfig := none
deriving DecidableEq

/-- Source `is_rule_enabled`: `True` if the list is empty, the key is not found,
or the first rule with that key has `enabled` unset or `True`. -/
def is_rule_enabled (rules : List Rule) (key : String) : Bool :=
  if rules.isEmpty then true
  else
    match rules.find? (fun r => r.rule_key == some key) with
    | some r => r.enabled.getD true
    | none => true

/-- Source `get_rule_config`: config of the first rule with the key, `{}` when the
list is empty, the key is not found, or the config is absent. -/
def get_rule_config (rules : List Rule) (key : String) : RuleConfig :=
  if rules.isEmpty then {}
  else
    match rules.find? (fun r => r.rule_key == some key) with
    | some r => r.config.getD {}
    | none => {}

/-- Source `get_study_hall_grades`: configured study-hall grades, `[]` when the
rule is disabled or nothing is configured. -/
def get_study_hall_grades (rules : List Rule) : List String :=
  if !is_rule_enabled rules "study_hall_grades" then []
  else (get_rule_config rules "study_hall_grades").grades

/-- Source `get_study_hall_eligible_statuses`: allowed teacher statuses for
study-hall supervision (a Python `set`, modelled as a list; only
membership is ever used). -/
def get_study_hall_eligible_statuses (rules : List Rule) : List String :=
  if !is_rule_enabled rules "study_hall_teacher_eligibility" then ["full-time"]
  else
    let config := get_rule_config rules "study_hall_teacher_eligibility"
    let statuses :=
      (if config.allow_full_time.getD true then ["full-time"] else []) ++
      (if config.allow_part_time.getD false then ["part-time"] else [])
    if statuses.isEmpty then ["full-time"] else statuses

/-! ## Data model -/

structure Teacher where
  name : String
  status : String
  can_supervise_study_hall : Option Bool := none
deriving DecidableEq

structure ClassEntry where
  teacher : String
  grades : List String
  subject : String
  days_per_week : Nat
  grade_display : String := ""
  is_elective : Bool := false
  available_days : List String := DAYS
  available_blocks : List Nat := BLOCKS
  fixed_slots : List (String × Nat) := []
deriving DecidableEq

structure Session where
  id : Nat
  teacher : String
  grades : List String
  grade_display : String
  subject : String
  valid_slots : List Nat
  is_fixed : Bool := false
  is_elective : Bool := false
deriving DecidableEq

/-- Source `get_valid_slots`: slots of the availability cross-product, in
day-major order, skipping unknown day/block names; the full 25-slot range
when that cross-product is empty. -/
def get_valid_slots (avail_days : List String) (avail_blocks : List Nat) : List Nat :=
  let slots := avail_days.flatMap (fun day =>
    match DAYS.findIdx? (· == day) with
    | none => []
    | some day_idx =>
      avail_blocks.filterMap (fun block =>
        match BLOCKS.findIdx? (· == block) with
        | none => none
        | some block_idx => some (day_block_to_slot day_idx block_idx)))
  if slots.isEmpty then List.range 25 else slots

/-- Valid `(day, block)` pair to a slot index (the `day in DAYS and block
in BLOCKS` guard of the source, combined with index lookup). -/
def fixed_slot_of (day : String) (block : Nat) : Option Nat :=
  match DAYS.findIdx? (· == day), BLOCKS.findIdx? (· == block) with
  | some day_idx, some block_idx => some (day_block_to_slot day_idx block_idx)
  | _, _ => none

/-- Source `get_study_hall_eligible`: teachers whose status is in the allowed
statuses and whose `can_supervise_study_hall` flag is not `True` (the
source treats `True` as "excluded", per its docstring the UI checkbox is
"Exclude from Study Hall"); the `classes` parameter is unused in the
source. -/
def get_study_hall_eligible (teachers : List Teacher) (_classes : List ClassEntry)
    (rules : List Rule) : List String :=
  let allowed_statuses := get_study_hall_eligible_statuses rules
  (teachers.filter (fun t =>
    decide (t.status ∈ allowed_statuses) && !(t.can_supervise_study_hall == some true))).map
    (·.name)

/-! ## Association-list helpers (Python dicts)

Python dicts preserve insertion order; `bumpAssoc` adds the amount to an
existing key in place or appends a fresh key at the end, exactly like
`d[k] = d.get(k, 0) + n`. -/

def assocFind {α β : Type} [DecidableEq α] (l : List (α × β)) (k : α) : Option β :=
  (l.find? (fun p => decide (p.1 = k))).map Prod.snd

def bumpAssoc {α : Type} [DecidableEq α] (l : List (α × Nat)) (k : α) (n : Nat) :
    List (α × Nat) :=
  match l with
  | [] => [(k, n)]
  | p :: rest => if p.1 = k then (p.1, p.2 + n) :: rest else p :: bumpAssoc rest k n

def assocSet {α β : Type} [DecidableEq α] (l : List (α × β)) (k : α) (v : β) :
    List (α × β) :=
  match l with
  | [] => [(k, v)]
  | p :: rest => if p.1 = k then (k, v) :: rest else p :: assocSet rest k v

def lookupListD {α β : Type} [DecidableEq α] (l : List (α × List β)) (k : α) : List β :=
  (assocFind l k).getD []

/-! ## Session builder (`build_sessions`) -/

/-- Sessions contributed by one class: `len(fixed_slots)` when fixed slots
are present, else `days_per_week`. -/
def countOf (cls : ClassEntry) : Nat :=
  if cls.fixed_slots.isEmpty then cls.days_per_week else cls.fixed_slots.length

/-- The `teacher_session_count` dict: total session count per teacher, in
first-appearance order. -/
def teacher_session_counts (classes : List ClassEntry) : List (String × Nat) :=
  classes.foldl (fun acc cls => bumpAssoc acc cls.teacher (countOf cls)) []

/-- Per class: `(slots_count, num_sessions)` — a fixed class counts one
valid slot per session; otherwise the raw availability cross-product. -/
def class_slots_and_sessions (cls : ClassEntry) : Nat × Nat :=
  if cls.fixed_slots.isEmpty then
    ((get_valid_slots cls.available_days cls.available_blocks).length, cls.days_per_week)
  else (1, cls.fixed_slots.length)

/-- The `teacher_total_slots` dict: sum of `slots_count * num_sessions`. -/
def teacher_total_slots (classes : List ClassEntry) : List (String × Nat) :=
  classes.foldl (fun acc cls =>
    let p := class_slots_and_sessions cls
    bumpAssoc acc cls.teacher (p.1 * p.2)) []

/-- Source `teacher_avg_slots` with the sort-time fallback `.get(teacher, 25)`:
average valid slots per session of the teacher, as an exact rational (the
source uses a Python float). -/
def teacher_avg_slots (classes : List ClassEntry) (t : String) : ℚ :=
  match assocFind (teacher_session_counts classes) t with
  | none => 25
  | some total_sessions =>
    let total_slots := (assocFind (teacher_total_slots classes) t).getD (25 * total_sessions)
    if total_sessions > 0 then (total_slots : ℚ) / (total_sessions : ℚ) else 25

/-- The per-teacher constraint score of the ordering heuristic:
`-teacher_load / teacher_flexibility` when the flexibility is positive,
else `0`. -/
def constraint_score (classes : List ClassEntry) (t : String) : ℚ :=
  let teacher_load := (assocFind (teacher_session_counts classes) t).getD 0
  let teacher_flexibility := teacher_avg_slots classes t
  if teacher_flexibility > 0 then -(teacher_load : ℚ) / teacher_flexibility else 0

/-- Source `grade_blocked_slots` for one grade: slots of fixed electives covering
the grade; only grades of the supplied grade list get an entry. -/
def grade_blocked_slots (classes : List ClassEntry) (grades : List String) (g : String) :
    List Nat :=
  if g ∈ grades then
    classes.flatMap (fun cls =>
      if cls.is_elective && !cls.fixed_slots.isEmpty then
        cls.fixed_slots.filterMap (fun db =>
          match fixed_slot_of db.1 db.2 with
          | some slot => if g ∈ cls.grades then some slot else none
          | none => none)
      else [])
  else []

/-- The `blocked` set of `build_sessions` for one class: elective-blocked
slots of each of its grades plus locked-teacher slots. -/
def class_blocked_list (classes : List ClassEntry)
    (locked_grade_slots : Option (List (String × List Nat))) (grades : List String)
    (cls : ClassEntry) : List Nat :=
  cls.grades.flatMap (fun g =>
    grade_blocked_slots classes grades g ++
      (match locked_grade_slots with
       | some m => lookupListD m g
       | none => []))

/-- The `blocked_days` set for one class: days on which a locked teacher
already teaches the class's subject to one of its grades. -/
def class_blocked_days (m : List ((String × String) × List Nat)) (cls : ClassEntry) :
    List Nat :=
  cls.grades.flatMap (fun g => lookupListD m (g, cls.subject))

/-- Valid-slot domain of a non-fixed class: availability cross-product,
then (for a non-elective class with grades) minus elective-blocked and
locked-teacher slots, then minus whole locked subject days. -/
def class_domain (classes : List ClassEntry)
    (locked_grade_slots : Option (List (String × List Nat))) (grades : List String)
    (locked_grade_subject_days : Option (List ((String × String) × List Nat)))
    (cls : ClassEntry) : List Nat :=
  let valid0 := get_valid_slots cls.available_days cls.available_blocks
  if !cls.is_elective && !cls.grades.isEmpty then
    let blocked := class_blocked_list classes locked_grade_slots grades cls
    let valid1 := if blocked.isEmpty then valid0
      else valid0.filter (fun s => !(blocked.contains s))
    match locked_grade_subject_days with
    | none => valid1
    | some m =>
      let blocked_days := class_blocked_days m cls
      if blocked_days.isEmpty then valid1
      else valid1.filter (fun s => !(blocked_days.contains (s / 5)))
  else valid0

/-- Sessions of one class before ordering.  Ids are placeholders: the
source assigns running ids here and reassigns them after sorting, so only
the post-sort ids are observable. -/
def sessions_of_class (classes : List ClassEntry)
    (locked_grade_slots : Option (List (String × List Nat))) (grades : List String)
    (locked_grade_subject_days : Option (List ((String × String) × List Nat)))
    (cls : ClassEntry) : List Session :=
  if cls.fixed_slots.isEmpty then
    List.replicate cls.days_per_week
      { id := 0, teacher := cls.teacher, grades := cls.grades,
        grade_display := cls.grade_display, subject := cls.subject,
        valid_slots := class_domain classes locked_grade_slots grades
          locked_grade_subject_days cls,
        is_fixed := false, is_elective := cls.is_elective }
  else
    cls.fixed_slots.filterMap (fun db =>
      (fixed_slot_of db.1 db.2).map (fun slot =>
        { id := 0, teacher := cls.teacher, grades := cls.grades,
          grade_display := cls.grade_display, subject := cls.subject,
          valid_slots := [slot], is_fixed := true, is_elective := cls.is_elective }))

/-- The three-component sort key: fixedness flag, negated per-teacher
constraint score, own domain size. -/
def sort_key (classes : List ClassEntry) (s : Session) : Nat × ℚ × Nat :=
  ((if s.is_fixed then 0 else 1), constraint_score classes s.teacher, s.valid_slots.length)

/-- Lexicographic order of Python tuple comparison on the sort key. -/
def tupLe (a b : Nat × ℚ × Nat) : Prop :=
  a.1 < b.1 ∨ (a.1 = b.1 ∧ (a.2.1 < b.2.1 ∨ (a.2.1 = b.2.1 ∧ a.2.2 ≤ b.2.2)))

instance : DecidableRel tupLe := fun _ _ => by unfold tupLe; infer_instance

def sessLe (classes : List ClassEntry) (s1 s2 : Session) : Bool :=
  decide (tupLe (sort_key classes s1) (sort_key classes s2))

def setId (s : Session) (i : Nat) : Session := { s with id := i }

/-- Post-sort sequential id reassignment. -/
def assign_ids : Nat → List Session → List Session
  | _, [] => []
  | n, s :: rest => setId s n :: assign_ids (n + 1) rest

/-- Source `build_sessions`: expand classes into sessions, stably sort by the
most-constrained-first key, reassign sequential ids. -/
def build_sessions (classes : List ClassEntry)
    (locked_grade_slots : Option (List (String × List Nat)) := none)
    (grades : List String := [])
    (locked_grade_subject_days : Option (List ((String × String) × List Nat)) := none) :
    List Session :=
  let pre := classes.flatMap
    (sessions_of_class classes locked_grade_slots grades locked_grade_subject_days)
  assign_ids 0 (pre.mergeSort (sessLe classes))

/-! ## Grade-display parsing (`grade_to_number`, `parse_grades_from_database`)

The regular expressions of the source are implemented directly on
character lists: `range_match` is the anchored
`(\d+)(st|nd|rd|th)?[dash](\d+)(st|nd|rd|th)?` match (dash: hyphen or
en-dash) and
`searchNumSuffix` the unanchored `(\d+)(st|nd|rd|th)` search. -/

def digitsVal (l : List Char) : Nat :=
  l.foldl (fun acc c => acc * 10 + (c.toNat - 48)) 0

def firstDigitRun : List Char → Option (List Char)
  | [] => none
  | c :: t => if c.isDigit then some (c :: t.takeWhile Char.isDigit) else firstDigitRun t

/-- Source `grade_to_number`: `0` for a kindergarten name, else the first digit
run, else `-1`. -/
def grade_to_number (grade : String) : Int :=
  if strContainsSub (pyLower grade) "kindergarten" then 0
  else
    match firstDigitRun grade.data with
    | some run => (digitsVal run : Int)
    | none => -1

def isOrdSuffix (a b : Char) : Bool :=
  let s := [a.toLower, b.toLower]
  s == ['s', 't'] || s == ['n', 'd'] || s == ['r', 'd'] || s == ['t', 'h']

def isDash (c : Char) : Bool := c == '-' || c == '–'

/-- After the first digit run: optionally an ordinal suffix, then a dash;
returns the remainder after the dash (regex backtracking is resolved by
the suffix letters and the dash being disjoint). -/
def stripOrdDash : List Char → Option (List Char)
  | a :: b :: c :: rest =>
    if isOrdSuffix a b then (if isDash c then some rest else none)
    else if isDash a then some (b :: c :: rest) else none
  | [a, b] => if isDash a then some [b] else none
  | [a] => if isDash a then some [] else none
  | [] => none

/-- Anchored grade-range match; returns the two numbers. -/
def range_match (s : String) : Option (Nat × Nat) :=
  match s.data with
  | [] => none
  | c :: t =>
    if c.isDigit then
      let run1 := (c :: t).takeWhile Char.isDigit
      let rest1 := (c :: t).dropWhile Char.isDigit
      match stripOrdDash rest1 with
      | some rest2 =>
        match rest2 with
        | d :: _ =>
          if d.isDigit then some (digitsVal run1, digitsVal (rest2.takeWhile Char.isDigit))
          else none
        | [] => none
      | none => none
    else none

/-- Leftmost digit run immediately followed by an ordinal suffix. -/
def searchNumSuffix : List Char → Option Nat
  | [] => none
  | c :: rest =>
    if c.isDigit then
      match (c :: rest).dropWhile Char.isDigit with
      | a :: b :: _ =>
        if isOrdSuffix a b then some (digitsVal ((c :: rest).takeWhile Char.isDigit))
        else searchNumSuffix rest
      | _ => searchNumSuffix rest
    else searchNumSuffix rest

/-- Step 4 of `parse_grades_from_database`: kindergarten variants. -/
def pgfd_kindergarten (trimmed : String) (database_grades : List String) : List String :=
  if strContainsSub (pyLower trimmed) "kindergarten" then
    match database_grades.find? (fun g => strContainsSub (pyLower g) "kindergarten") with
    | some g => [g]
    | none => []
  else []

/-- Step 3 of `parse_grades_from_database`: single grade number. -/
def pgfd_single (trimmed : String) (database_grades : List String) : List String :=
  match searchNumSuffix trimmed.data with
  | some num =>
    match database_grades.find? (fun g => grade_to_number g == (num : Int)) with
    | some g => [g]
    | none => pgfd_kindergarten trimmed database_grades
  | none => pgfd_kindergarten trimmed database_grades

/-- Source `parse_grades_from_database`: direct match, then grade range, then
single number, then kindergarten, else `[]`.  The database grades are a
Python set; it is modelled as a list and only membership and the matched
subset are relied upon. -/
def parse_grades_from_database (grade_display : String) (database_grades : List String) :
    List String :=
  let trimmed := pyStrip grade_display
  if trimmed ∈ database_grades then [trimmed]
  else
    match range_match trimmed with
    | some se =>
      if 0 < se.1 && 0 < se.2 && se.1 ≤ se.2 then
        let matched := database_grades.filter (fun g =>
          (se.1 : Int) ≤ grade_to_number g && grade_to_number g ≤ (se.2 : Int))
        if matched.isEmpty then pgfd_single trimmed database_grades else matched
      else pgfd_single trimmed database_grades
    | none => pgfd_single trimmed database_grades

/-! ## Schedule grids

A schedule cell is `None` or a two-element list, modelled as
`Option (String × String)`.  A teacher grid maps `(day, block)` to a
cell; the dict of teacher schedules is an association list so that its
iteration order is preserved.  Grade schedules are modelled as a total
function from grade names, absent grades mapping to the empty grid. -/

abbrev Cell := Option (String × String)

abbrev Grid := String → Nat → Cell

def empty_grid : Grid := fun _ _ => none

def grid_set (gr : Grid) (day : String) (block : Nat) (v : Cell) : Grid :=
  fun d b => if d = day ∧ b = block then v else gr d b

abbrev GradeSchedules := String → Grid

def gs_set (gs : GradeSchedules) (g day : String) (block : Nat) (v : Cell) :
    GradeSchedules :=
  fun g2 => if g2 = g then grid_set (gs g2) day block v else gs g2

/-- Source `rebuild_grade_schedules`: destructive rebuild of the grade grids from
the teacher grids.  Teaching entries (not `OPEN`, not `Study Hall`) are
written, per parsed grade, in teacher iteration order — a later teacher
covering the same grade and slot overwrites an earlier one. -/
def rebuild_grade_schedules (teacher_schedules : List (String × Grid))
    (grades : List String) : GradeSchedules :=
  teacher_schedules.foldl (fun gs tp =>
    DAYS.foldl (fun gs day =>
      BLOCKS.foldl (fun gs block =>
        match tp.2 day block with
        | none => gs
        | some entry =>
          if entry.2 = "OPEN" then gs
          else if entry.2 = "Study Hall" then gs
          else
            (parse_grades_from_database entry.1 grades).foldl
              (fun gs g => gs_set gs g day block (some (tp.1, entry.2))) gs)
        gs) gs) (fun _ => empty_grid)

/-! ## Scoring helpers (`count_back_to_back`, `count_same_day_open`) -/

def lookup_grid (teacher_schedules : List (String × Grid)) (t : String) : Grid :=
  ((teacher_schedules.find? (fun p => decide (p.1 = t))).map Prod.snd).getD empty_grid

/-- A cell that counts as "open": a present entry whose subject is `OPEN`
or `Study Hall` (an absent cell does not count here). -/
def isOpenCell (c : Cell) : Bool :=
  match c with
  | some entry => entry.2 == "OPEN" || entry.2 == "Study Hall"
  | none => false

/-- Source `count_back_to_back`: adjacent-block pairs, per day, that are both
open/study-hall. -/
def count_back_to_back (teacher_schedules : List (String × Grid)) (t : String) : Nat :=
  let sched := lookup_grid teacher_schedules t
  (DAYS.map (fun day =>
    (List.range (BLOCKS.length - 1)).countP (fun i =>
      isOpenCell (sched day (BLOCKS.getD i 0)) &&
        isOpenCell (sched day (BLOCKS.getD (i + 1) 0))))).sum

/-- Source `count_same_day_open`: per day, the open blocks beyond the first. -/
def count_same_day_open (teacher_schedules : List (String × Grid)) (t : String) : Nat :=
  let sched := lookup_grid teacher_schedules t
  (DAYS.map (fun day =>
    let open_count := BLOCKS.countP (fun b => isOpenCell (sched day b))
    if open_count > 1 then open_count - 1 else 0)).sum

/-- The candidate-scoring step of `generate_schedules` (lines 1600-1636):
`sh_placed` is the number of study halls `add_study_halls` placed when the
`study_hall_distribution` rule is enabled (it is replaced by `0` when the
rule is disabled, in which case no study halls are assigned); the
back-to-back and spread sums run over the full-time teachers and are
replaced by `0` when their rules are disabled.  The final score is the
source's `score = (5 - sh_placed) * 100 + total_btb + total_spread`. -/
def candidate_score (rules : List Rule) (full_time_names : List String)
    (teacher_schedules : List (String × Grid)) (sh_placed : Nat) : Int :=
  let shp : Nat := if is_rule_enabled rules "study_hall_distribution" then sh_placed else 0
  let total_btb : Nat :=
    if is_rule_enabled rules "no_btb_open" then
      (full_time_names.map (count_back_to_back teacher_schedules)).sum
    else 0
  let total_spread : Nat :=
    if is_rule_enabled rules "spread_open" then
      (full_time_names.map (count_same_day_open teacher_schedules)).sum
    else 0
  ((5 : Int) - (shp : Int)) * 100 + (total_btb : Int) + (total_spread : Int)

/-! ## Pre-flight validation of `generate_schedules`

The four checks run on the converted class objects before any solver
call.  The human-readable diagnostic strings of the source are modelled
as tagged values carrying the same data. -/

inductive PreflightError where
  | incomplete (index : Nat) (issues : List String)
  | teacherOverload (teacher : String) (sessions : Nat)
  | gradeOverload (grade : String) (sessions : Nat)
  | fixedConflict (teacher day : String) (block : Nat) (subject1 subject2 : String)
deriving DecidableEq

/-- Check 0, with the 1-based class index of the source's messages. -/
def preflight_incomplete_aux : Nat → List ClassEntry → List PreflightError
  | _, [] => []
  | i, cls :: rest =>
    let issues :=
      (if pyStrip cls.teacher = "" then ["no teacher"] else []) ++
      (if cls.grades.isEmpty then ["no grade"] else []) ++
      (if pyStrip cls.subject = "" then ["no subject"] else [])
    (if issues.isEmpty then [] else [.incomplete (i + 1) issues]) ++
      preflight_incomplete_aux (i + 1) rest

def preflight_incomplete (classes : List ClassEntry) : List PreflightError :=
  preflight_incomplete_aux 0 classes

/-- Check 1: teachers with more than 25 sessions. -/
def preflight_teacher_overload (classes : List ClassEntry) : List PreflightError :=
  ((teacher_session_counts classes).filter (fun p => p.2 > 25)).map
    (fun p => .teacherOverload p.1 p.2)

/-- Check 2's per-grade counts: electives skipped, each `(grade, subject)`
pair counted only at its first appearance (co-taught groups count once). -/
def grade_session_counts (classes : List ClassEntry) : List (String × Nat) :=
  (classes.foldl (fun acc cls =>
    if cls.is_elective then acc
    else cls.grades.foldl (fun acc2 g =>
      if (g, cls.subject) ∈ acc2.1 then acc2
      else ((g, cls.subject) :: acc2.1, bumpAssoc acc2.2 g (countOf cls))) acc)
    (([] : List (String × String)), ([] : List (String × Nat)))).2

def preflight_grade_overload (classes : List ClassEntry) : List PreflightError :=
  ((grade_session_counts classes).filter (fun p => p.2 > 25)).map
    (fun p => .gradeOverload p.1 p.2)

/-- Check 3's iteration, flattened: each valid fixed `(day, block)` of each
class, in source order, with its teacher, slot and subject. -/
def fixed_occurrences (classes : List ClassEntry) :
    List (String × String × Nat × Nat × String) :=
  classes.flatMap (fun cls =>
    cls.fixed_slots.filterMap (fun db =>
      (fixed_slot_of db.1 db.2).map (fun slot =>
        (cls.teacher, db.1, db.2, slot, cls.subject))))

/-- The `(teacher, slot)` key of one fixed occurrence. -/
def fc_key (o : String × String × Nat × Nat × String) : String × Nat := (o.1, o.2.2.2.1)

/-- One step of check 3: a conflict is recorded whenever a
`(teacher, slot)` key repeats; the stored subject for a key is updated to
the latest one. -/
def fc_step (acc : List ((String × Nat) × String) × List PreflightError)
    (o : String × String × Nat × Nat × String) :
    List ((String × Nat) × String) × List PreflightError :=
  match assocFind acc.1 (fc_key o) with
  | some prevSubject =>
    (assocSet acc.1 (fc_key o) o.2.2.2.2,
      acc.2 ++ [.fixedConflict o.1 o.2.1 o.2.2.1 prevSubject o.2.2.2.2])
  | none => (assocSet acc.1 (fc_key o) o.2.2.2.2, acc.2)

def fixed_conflict_fold (occs : List (String × String × Nat × Nat × String)) :
    List ((String × Nat) × String) × List PreflightError :=
  occs.foldl fc_step ([], [])

def preflight_fixed_conflicts (classes : List ClassEntry) : List PreflightError :=
  (fixed_conflict_fold (fixed_occurrences classes)).2

/-- All pre-flight errors, in the source's order of appearance. -/
def preflight_errors (classes : List ClassEntry) : List PreflightError :=
  preflight_incomplete classes ++ preflight_teacher_overload classes ++
    preflight_grade_overload classes ++ preflight_fixed_conflicts classes

/-! ## `generate_schedules` up to the solving loop -/

/-- The early-return dict of `generate_schedules` (input validation and
pre-flight failures): `status`, an always-empty `options` list, `message`,
`seeds_completed` and `infeasible_count`. -/
structure EarlyReturn where
  status : String
  options : List String
  message : String
  seeds_completed : Nat
  infeasible_count : Nat
deriving DecidableEq

/-- Outcome of `generate_schedules` before any solver call: either an
early return (with the diagnostics gathered so far) or the prepared
session list and study-hall-eligible teachers with which the seeded
attempt loop — whose outcome depends on the external CP-SAT service —
would run. -/
inductive GSResult where
  | halted (result : EarlyReturn) (diagnostics : List PreflightError)
  | proceed (sessions : List Session) (eligible : List String)
      (diagnostics : List PreflightError)
deriving DecidableEq

def GSResult.isHalted : GSResult → Bool
  | .halted _ _ => true
  | .proceed _ _ _ => false

/-- Source `generate_schedules` from entry to the pre-flight decision, for the
standard full-generation call (`locked_teachers = None`, no explicit
study-hall teacher overrides).  Input conversion from raw dicts is
length-preserving, so the emptiness validations are stated on the
converted lists. -/
def generate_schedules_pre (teachers : List Teacher) (classes : List ClassEntry)
    (rules : List Rule) (grades : List String) : GSResult :=
  if teachers.isEmpty then
    .halted ⟨"error", [], "No teachers provided. At least one teacher is required.", 0, 0⟩ []
  else if classes.isEmpty then
    .halted ⟨"error", [], "No classes provided. At least one class is required.", 0, 0⟩ []
  else if rules.isEmpty then
    .halted ⟨"error", [],
      "No rules provided. Scheduling rules must be configured in the database.", 0, 0⟩ []
  else if grades.isEmpty then
    .halted ⟨"error", [],
      "No grades provided. Grades must be configured in the database.", 0, 0⟩ []
  else
    let eligible := get_study_hall_eligible teachers classes rules
    let sessions := build_sessions classes none grades none
    let errs := preflight_errors classes
    if errs.isEmpty then .proceed sessions eligible errs
    else
      .halted ⟨"infeasible", [],
        "Found " ++ toString errs.length ++
          " constraint issue(s) that make scheduling impossible.", 0, 0⟩ errs

/-! ## The grade-exclusivity constraints of `solve_with_cpsat`

Hard Constraint 2 (lines 522-544): per grade, `AddAllDifferent` over the
variables of the non-elective sessions covering it, plus a disequality
for each (non-elective, elective) pair covering it, and no constraint
between electives.  An assignment maps session ids to slots. -/

def regular_sessions_of (sessions : List Session) (g : String) : List Session :=
  sessions.filter (fun s => decide (g ∈ s.grades) && !s.is_elective)

def elective_sessions_of (sessions : List Session) (g : String) : List Session :=
  sessions.filter (fun s => decide (g ∈ s.grades) && s.is_elective)

/-- The constraints the source emits for one grade. -/
def hc2_for_grade (sessions : List Session) (g : String) (assign : Nat → Nat) : Prop :=
  List.Pairwise (fun s1 s2 => assign s1.id ≠ assign s2.id) (regular_sessions_of sessions g) ∧
    ∀ reg ∈ regular_sessions_of sessions g, ∀ elec ∈ elective_sessions_of sessions g,
      assign reg.id ≠ assign elec.id

/-- The whole Hard Constraint 2 block. -/
def hc2_sat (sessions : List Session) (active_grades : List String)
    (assign : Nat → Nat) : Prop :=
  ∀ g ∈ active_grades, hc2_for_grade sessions g assign

instance (sessions : List Session) (g : String) (assign : Nat → Nat) :
    Decidable (hc2_for_grade sessions g assign) := by
  unfold hc2_for_grade; infer_instance

instance (sessions : List Session) (active_grades : List String) (assign : Nat → Nat) :
    Decidable (hc2_sat sessions active_grades assign) := by
  unfold hc2_sat; infer_instance

/-! ## Spec-side definitions

These follow the specification's wording (not the source) and are
compared against the source-derived definitions above. -/

/-- Eligibility as the spec's claim words it: unset or `True` flag means
eligible (unless the status rule excludes the teacher), `False` means
explicitly excluded. -/
def claimed_study_hall_eligible (teachers : List Teacher) (_classes : List ClassEntry)
    (rules : List Rule) : List String :=
  let allowed_statuses := get_study_hall_eligible_statuses rules
  (teachers.filter (fun t =>
    decide (t.status ∈ allowed_statuses) && !(t.can_supervise_study_hall == some false))).map
    (·.name)

/-- The spec's `spreadOpenCount` for one teacher: per day,
`max(0, openBlocksThatDay - 1)`. -/
def spec_spread_open (teacher_schedules : List (String × Grid)) (t : String) : Int :=
  (DAYS.map (fun day =>
    max ((BLOCKS.countP (fun b =>
      isOpenCell (lookup_grid teacher_schedules t day b)) : Int) - 1) 0)).sum

/-- The spec's score formula:
`(requiredStudyHallCount - placedCount) * 100 + backToBackCount +
spreadOpenCount`, each term zeroed when its governing rule is disabled,
with `requiredStudyHallCount` the number of configured study-hall
grades. -/
def claimed_score (rules : List Rule) (full_time_names : List String)
    (teacher_schedules : List (String × Grid)) (sh_placed : Nat) : Int :=
  (if is_rule_enabled rules "study_hall_distribution" then
    (((get_study_hall_grades rules).length : Int) - (sh_placed : Int)) * 100
  else 0) +
  (if is_rule_enabled rules "no_btb_open" then
    ((full_time_names.map (count_back_to_back teacher_schedules)).sum : Int)
  else 0) +
  (if is_rule_enabled rules "spread_open" then
    (full_time_names.map (spec_spread_open teacher_schedules)).sum
  else 0)

/-! ## C10: rules absent from the list default to enabled -/

/-- C10: `is_rule_enabled` returns `True` whenever the rules list is empty
or contains no rule with the given key; in particular each toggleable
key (`no_duplicate_subjects`, `study_hall_distribution`, `no_btb_open`,
`spread_open`) is enabled by default when absent. -/
theorem rule_absent_defaults_enabled (rules : List Rule) (key : String)
    (h : ∀ r ∈ rules, r.rule_key ≠ some key) :
    is_rule_enabled rules key = true := by
  unfold is_rule_enabled
  split
  · rfl
  · have hfind : rules.find? (fun r => r.rule_key == some key) = none := by
      rw [List.find?_eq_none]
      intro r hr
      simpa using h r hr
    rw [hfind]

/-- Witness for C10: a nonempty rules list not mentioning `no_btb_open`. -/
theorem rule_absent_defaults_enabled_witness :
    (∀ r ∈ [(⟨some "study_hall_grades", some true, none⟩ : Rule)],
      r.rule_key ≠ some "no_btb_open") ∧
    is_rule_enabled [⟨some "study_hall_grades", some true, none⟩] "no_btb_open" = true :=
  ⟨by decide,
    rule_absent_defaults_enabled [⟨some "study_hall_grades", some true, none⟩]
      "no_btb_open" (by decide)⟩

/-! ## C9: missing inputs give status `error` before any work -/

/-- C9: a `None`/empty teachers, classes, rules or grades input makes
`generate_schedules` return status `error` (not `infeasible`) with empty
options, `seeds_completed = 0` and `infeasible_count = 0`, before
sessions are built or the solver is invoked. -/
theorem empty_input_returns_error (teachers : List Teacher) (classes : List ClassEntry)
    (rules : List Rule) (grades : List String)
    (h : teachers = [] ∨ classes = [] ∨ rules = [] ∨ grades = []) :
    ∃ r, generate_schedules_pre teachers classes rules grades = GSResult.halted r [] ∧
      r.status = "error" ∧ r.options = [] ∧ r.seeds_completed = 0 ∧
      r.infeasible_count = 0 := by
  unfold generate_schedules_pre
  rcases h with h | h | h | h <;> subst h <;> split_ifs <;>
    first
      | exact ⟨_, rfl, rfl, rfl, rfl, rfl⟩
      | simp_all [List.isEmpty_iff]

/-- Witness for C9: an empty classes list with the other inputs present. -/
theorem empty_input_returns_error_witness :
    ∃ r, generate_schedules_pre [⟨"Alice", "full-time", none⟩] []
        [⟨some "study_hall_grades", some true, none⟩] ["6th Grade"] =
        GSResult.halted r [] ∧
      r.status = "error" ∧ r.options = [] ∧ r.seeds_completed = 0 ∧
      r.infeasible_count = 0 :=
  empty_input_returns_error _ _ _ _ (Or.inr (Or.inl rfl))

/-! ## C2: study-hall eligibility and the tri-state flag -/

/-- Counterexample to C2: a full-time teacher with
`can_supervise_study_hall = True` is, by the claim's reading of the
tri-state flag, eligible — but `get_study_hall_eligible` excludes the
teacher (the source inverts the flag: `True` means excluded, because the
UI checkbox is "Exclude from Study Hall"). -/
theorem study_hall_eligible_counterexample :
    get_study_hall_eligible [⟨"Alice", "full-time", some true⟩] [] [] = [] ∧
      claimed_study_hall_eligible [⟨"Alice", "full-time", some true⟩] [] [] = ["Alice"] ∧
      ("full-time" ∈ get_study_hall_eligible_statuses []) := by
  refine ⟨?_, ?_, ?_⟩ <;> decide

/-- C2 (amended): a teacher's name is returned by
`get_study_hall_eligible` exactly when their status is among the allowed
statuses and the tri-state flag is not `True` — i.e. unset (`None`) or
`False` means eligible subject to the status rule, and `True` means
explicitly excluded. -/
theorem study_hall_eligible_iff (teachers : List Teacher) (classes : List ClassEntry)
    (rules : List Rule) (n : String) :
    n ∈ get_study_hall_eligible teachers classes rules ↔
      ∃ t ∈ teachers, t.name = n ∧
        t.status ∈ get_study_hall_eligible_statuses rules ∧
        t.can_supervise_study_hall ≠ some true := by
  unfold get_study_hall_eligible
  simp only [List.mem_map, List.mem_filter, Bool.and_eq_true, decide_eq_true_eq,
    Bool.not_eq_true', beq_eq_false_iff_ne, ne_eq]
  constructor
  · rintro ⟨t, ⟨ht, hstat, hflag⟩, hname⟩
    exact ⟨t, ht, hname, hstat, hflag⟩
  · rintro ⟨t, ht, hname, hstat, hflag⟩
    exact ⟨t, ⟨ht, hstat, hflag⟩, hname⟩

/-! ## C1: the candidate score -/

/-- Counterexample to C1: with the `study_hall_distribution` rule
disabled, the source still computes `(5 - 0) * 100 = 500` as the
study-hall term, while the claim's formula (term zeroed when its rule is
disabled, coefficient `requiredStudyHallCount`) gives `0`. -/
theorem candidate_score_counterexample :
    candidate_score [⟨some "study_hall_distribution", some false, none⟩] [] [] 0 = 500 ∧
      claimed_score [⟨some "study_hall_distribution", some false, none⟩] [] [] 0 = 0 := by
  refine ⟨?_, ?_⟩ <;> decide

/-- C1 (amended): the score of a post-processed candidate is
`(5 - placed') * 100 + backToBackCount + spreadOpenCount` where `5` is a
hardcoded constant (not the configured study-hall grade count), `placed'`
is the placed study-hall count when the `study_hall_distribution` rule is
enabled and `0` otherwise (so the study-hall term is the constant `500`
whenever that rule is disabled), the back-to-back term sums
`count_back_to_back` over full-time teachers when `no_btb_open` is
enabled and is `0` otherwise, and the spread term sums, per teacher per
day, `max(0, openBlocksThatDay - 1)` when `spread_open` is enabled and is
`0` otherwise. -/
theorem candidate_score_formula (rules : List Rule) (full_time_names : List String)
    (teacher_schedules : List (String × Grid)) (sh_placed : Nat) :
    candidate_score rules full_time_names teacher_schedules sh_placed =
      ((5 : Int) -
        (if is_rule_enabled rules "study_hall_distribution" then (sh_placed : Int)
         else 0)) * 100 +
      (if is_rule_enabled rules "no_btb_open" then
        ((full_time_names.map (count_back_to_back teacher_schedules)).sum : Int)
      else 0) +
      (if is_rule_enabled rules "spread_open" then
        (full_time_names.map (spec_spread_open teacher_schedules)).sum
      else 0) := by
  have hspread : ∀ t, (count_same_day_open teacher_schedules t : Int) =
      spec_spread_open teacher_schedules t := by
    intro t
    unfold count_same_day_open spec_spread_open
    rw [Nat.cast_list_sum, List.map_map]
    congr 1
    apply List.map_congr_left
    intro day _
    simp only [Function.comp_apply]
    rcases Nat.lt_or_ge 1 (BLOCKS.countP fun b =>
        isOpenCell (lookup_grid teacher_schedules t day b)) with hgt | hle
    · rw [if_pos hgt]
      push_cast [Nat.le_of_lt hgt]
      omega
    · rw [if_neg (by omega)]
      interval_cases h : (BLOCKS.countP fun b =>
          isOpenCell (lookup_grid teacher_schedules t day b)) <;> simp
  unfold candidate_score
  split_ifs <;>
    simp_all [Nat.cast_list_sum, List.map_map, Function.comp_def, hspread]

/-! ## C4: fixed-slot conflicts are per teacher, not across teachers -/

def teachersB : List Teacher := [⟨"Alice", "full-time", none⟩, ⟨"Bob", "full-time", none⟩]

/-- Two teachers, each with a class fixed to (Mon, block 1). -/
def classes_two_teachers_same_slot : List ClassEntry :=
  [⟨"Alice", ["6th Grade"], "Math", 1, "", false, DAYS, BLOCKS, [("Mon", 1)]⟩,
   ⟨"Bob", ["7th Grade"], "Science", 1, "", false, DAYS, BLOCKS, [("Mon", 1)]⟩]

/-- One teacher with two classes fixed to (Mon, block 1). -/
def classes_one_teacher_same_slot : List ClassEntry :=
  [⟨"Alice", ["6th Grade"], "Math", 1, "", false, DAYS, BLOCKS, [("Mon", 1)]⟩,
   ⟨"Alice", ["7th Grade"], "Science", 1, "", false, DAYS, BLOCKS, [("Mon", 1)]⟩]

def rulesB : List Rule := [⟨some "study_hall_grades", some true, none⟩]

/-- Counterexample to C4: with two different teachers each fixed to
(Mon, block 1), the pre-flight check — keyed on `(teacher, slot)` —
reports nothing and `generate_schedules` proceeds to the solving loop
instead of returning `infeasible` with zero attempts. -/
theorem fixed_conflict_two_teachers_counterexample :
    (generate_schedules_pre teachersB classes_two_teachers_same_slot rulesB
      ["6th Grade", "7th Grade"]).isHalted = false ∧
      preflight_errors classes_two_teachers_same_slot = [] := by
  refine ⟨?_, ?_⟩ <;> decide

/-- C4 (amended): a fixed-slot conflict is reported only for a single
teacher with two fixed sessions in the same slot; for such an input
`generate_schedules` returns status `infeasible` with `seeds_completed =
0`, empty options, and a diagnostic naming the conflict at Mon block 1. -/
theorem fixed_conflict_same_teacher_infeasible :
    generate_schedules_pre teachersB classes_one_teacher_same_slot rulesB
        ["6th Grade", "7th Grade"] =
      GSResult.halted
        ⟨"infeasible", [],
          "Found 1 constraint issue(s) that make scheduling impossible.", 0, 0⟩
        [.fixedConflict "Alice" "Mon" 1 "Math" "Science"] := by
  decide

/-! ## C3: pre-flight violations short-circuit to `infeasible` -/

/-- Some class is missing a teacher, has zero grades, or is missing a
subject. -/
def has_incomplete_class (classes : List ClassEntry) : Prop :=
  ∃ cls ∈ classes, pyStrip cls.teacher = "" ∨ cls.grades = [] ∨ pyStrip cls.subject = ""

/-- Some teacher totals more than 25 weekly sessions. -/
def has_teacher_overload (classes : List ClassEntry) : Prop :=
  ∃ p ∈ teacher_session_counts classes, p.2 > 25

/-- Some grade totals more than 25 weekly non-elective sessions, each
co-taught grade+subject group counted once. -/
def has_grade_overload (classes : List ClassEntry) : Prop :=
  ∃ p ∈ grade_session_counts classes, p.2 > 25

/-- Some single teacher has two fixed sessions in the same slot. -/
def has_fixed_conflict (classes : List ClassEntry) : Prop :=
  ¬ ((fixed_occurrences classes).map fc_key).Nodup

instance (classes : List ClassEntry) : Decidable (has_incomplete_class classes) := by
  unfold has_incomplete_class; infer_instance

instance (classes : List ClassEntry) : Decidable (has_teacher_overload classes) := by
  unfold has_teacher_overload; infer_instance

instance (classes : List ClassEntry) : Decidable (has_grade_overload classes) := by
  unfold has_grade_overload; infer_instance

instance (classes : List ClassEntry) : Decidable (has_fixed_conflict classes) := by
  unfold has_fixed_conflict; infer_instance

theorem assocFind_cons {α β : Type} [DecidableEq α] (p : α × β) (l : List (α × β))
    (k : α) : assocFind (p :: l) k = if p.1 = k then some p.2 else assocFind l k := by
  by_cases h : p.1 = k <;> simp [assocFind, List.find?_cons, h]

theorem assocFind_assocSet_self {α β : Type} [DecidableEq α] (l : List (α × β))
    (k : α) (v : β) : assocFind (assocSet l k v) k = some v := by
  induction l with
  | nil => simp [assocSet, assocFind_cons, assocFind, List.find?]
  | cons p rest ih =>
    by_cases hpk : p.1 = k
    · simp [assocSet, hpk, assocFind_cons]
    · simp [assocSet, hpk, assocFind_cons, ih]

theorem assocFind_nil {α β : Type} [DecidableEq α] (k : α) :
    assocFind ([] : List (α × β)) k = none := rfl

theorem assocFind_assocSet_ne {α β : Type} [DecidableEq α] (l : List (α × β))
    (k k' : α) (v : β) (h : k' ≠ k) :
    assocFind (assocSet l k v) k' = assocFind l k' := by
  have hkk : ¬ (k = k') := fun hh => h hh.symm
  induction l with
  | nil => simp [assocSet, assocFind_cons, assocFind_nil, hkk]
  | cons p rest ih =>
    by_cases hpk : p.1 = k
    · simp [assocSet, hpk, assocFind_cons, hkk]
    · simp [assocSet, hpk, assocFind_cons, ih]

/-- Conflicts accumulated by the check-3 fold only grow: the starting
conflict list is a left factor of the result. -/
theorem fc_fold_conflicts_append (occs : List (String × String × Nat × Nat × String))
    (s : List ((String × Nat) × String)) (c : List PreflightError) :
    (occs.foldl fc_step (s, c)).2 = c ++ (occs.foldl fc_step (s, [])).2 := by
  induction occs generalizing s c with
  | nil => simp
  | cons o rest ih =>
    simp only [List.foldl_cons]
    rcases hfind : assocFind s (fc_key o) with _ | prev
    · simp only [fc_step, hfind]
      exact ih _ _
    · simp only [fc_step, hfind]
      rw [ih _ (c ++ [_]), ih _ ([] ++ [_])]
      simp

/-- If the check-3 fold from seen-set `s` reports no conflict, then the
occurrence keys are distinct and none of them was in `s`. -/
theorem fc_fold_nil_nodup (occs : List (String × String × Nat × Nat × String)) :
    ∀ s, (occs.foldl fc_step (s, [])).2 = [] →
      (occs.map fc_key).Nodup ∧ ∀ k ∈ occs.map fc_key, assocFind s k = none := by
  induction occs with
  | nil => intro s _; simp
  | cons o rest ih =>
    intro s h
    simp only [List.foldl_cons] at h
    rcases hfind : assocFind s (fc_key o) with _ | prev
    · simp only [fc_step, hfind] at h
      obtain ⟨hnd, habs⟩ := ih _ h
      have hset : ∀ k ∈ rest.map fc_key, assocFind s k = none ∧ k ≠ fc_key o := by
        intro k hk
        have hfound := habs k hk
        by_cases hko : k = fc_key o
        · rw [hko, assocFind_assocSet_self] at hfound
          exact absurd hfound (by simp)
        · rw [assocFind_assocSet_ne _ _ _ _ hko] at hfound
          exact ⟨hfound, hko⟩
      refine ⟨List.nodup_cons.mpr ⟨fun hmem => ?_, hnd⟩, ?_⟩
      · exact (hset _ hmem).2 rfl
      · intro k hk
        rcases List.mem_cons.mp hk with hk | hk
        · exact hk ▸ hfind
        · exact (hset k hk).1
    · simp only [fc_step, hfind] at h
      rw [fc_fold_conflicts_append] at h
      simp at h

/-- A duplicated `(teacher, slot)` fixed pair forces a reported
conflict. -/
theorem fixed_conflicts_of_dup (classes : List ClassEntry)
    (h : has_fixed_conflict classes) : preflight_fixed_conflicts classes ≠ [] := by
  intro hnil
  exact h (fc_fold_nil_nodup (fixed_occurrences classes) [] hnil).1

theorem incomplete_aux_ne_nil (classes : List ClassEntry)
    (h : ∃ cls ∈ classes,
      pyStrip cls.teacher = "" ∨ cls.grades = [] ∨ pyStrip cls.subject = "") :
    ∀ n, preflight_incomplete_aux n classes ≠ [] := by
  induction classes with
  | nil => simp at h
  | cons cls rest ih =>
    intro n hnil
    simp only [preflight_incomplete_aux, List.append_eq_nil] at hnil
    obtain ⟨hhead, htail⟩ := hnil
    rcases h with ⟨c, hc, hbad⟩
    rcases List.mem_cons.mp hc with hc | hc
    · subst hc
      have hne : ((if pyStrip c.teacher = "" then ["no teacher"] else []) ++
          (if c.grades.isEmpty then ["no grade"] else []) ++
          (if pyStrip c.subject = "" then ["no subject"] else [])) ≠ [] := by
        rcases hbad with hb | hb | hb <;> simp [hb, List.append_eq_nil]
      rw [if_neg (by simpa [List.isEmpty_iff] using hne)] at hhead
      simp at hhead
    · exact ih ⟨c, hc, hbad⟩ (n + 1) htail

/-- C3: with the input validations passed, any of the four pre-flight
violations (incomplete class, teacher over 25 sessions, grade over 25
non-elective sessions with co-taught groups counted once, a teacher with
two fixed sessions in one slot) makes `generate_schedules` return status
`infeasible` with a nonempty diagnostic list, empty options and
`seeds_completed = 0`, before any solver call. -/
theorem preflight_violation_infeasible (teachers : List Teacher)
    (classes : List ClassEntry) (rules : List Rule) (grades : List String)
    (h1 : teachers ≠ []) (h2 : classes ≠ []) (h3 : rules ≠ []) (h4 : grades ≠ [])
    (hviol : has_incomplete_class classes ∨ has_teacher_overload classes ∨
      has_grade_overload classes ∨ has_fixed_conflict classes) :
    generate_schedules_pre teachers classes rules grades =
      GSResult.halted
        ⟨"infeasible", [],
          "Found " ++ toString (preflight_errors classes).length ++
            " constraint issue(s) that make scheduling impossible.", 0, 0⟩
        (preflight_errors classes) ∧
      preflight_errors classes ≠ [] := by
  have herrs : preflight_errors classes ≠ [] := by
    intro hnil
    unfold preflight_errors at hnil
    simp only [List.append_eq_nil] at hnil
    obtain ⟨⟨⟨hinc, hto⟩, hgo⟩, hfc⟩ := hnil
    rcases hviol with hv | hv | hv | hv
    · exact absurd hinc (incomplete_aux_ne_nil classes hv 0)
    · obtain ⟨p, hp, hgt⟩ := hv
      have : p ∈ (teacher_session_counts classes).filter (fun p => p.2 > 25) :=
        List.mem_filter.mpr ⟨hp, by simpa using hgt⟩
      have := List.ne_nil_of_mem (List.mem_map_of_mem
        (fun p => PreflightError.teacherOverload p.1 p.2) this)
      exact absurd hto this
    · obtain ⟨p, hp, hgt⟩ := hv
      have : p ∈ (grade_session_counts classes).filter (fun p => p.2 > 25) :=
        List.mem_filter.mpr ⟨hp, by simpa using hgt⟩
      have := List.ne_nil_of_mem (List.mem_map_of_mem
        (fun p => PreflightError.gradeOverload p.1 p.2) this)
      exact absurd hgo this
    · exact fixed_conflicts_of_dup classes hv hfc
  refine ⟨?_, herrs⟩
  unfold generate_schedules_pre
  rw [if_neg (by simpa [List.isEmpty_iff] using h1),
    if_neg (by simpa [List.isEmpty_iff] using h2),
    if_neg (by simpa [List.isEmpty_iff] using h3),
    if_neg (by simpa [List.isEmpty_iff] using h4),
    if_neg (by simpa [List.isEmpty_iff] using herrs)]

/-- Witness for C3 — the spec's Scenario C: a grade with 26 weekly
non-elective sessions across two classes trips the grade-overload check
and yields `infeasible` with zero attempts. -/
theorem preflight_violation_infeasible_witness :
    (([⟨"Alice", ["6th Grade"], "Math", 13, "", false, DAYS, BLOCKS, []⟩,
       ⟨"Bob", ["6th Grade"], "Science", 13, "", false, DAYS, BLOCKS, []⟩] :
        List ClassEntry) ≠ [] ∧
      has_grade_overload
        [⟨"Alice", ["6th Grade"], "Math", 13, "", false, DAYS, BLOCKS, []⟩,
         ⟨"Bob", ["6th Grade"], "Science", 13, "", false, DAYS, BLOCKS, []⟩]) ∧
    (generate_schedules_pre teachersB
        [⟨"Alice", ["6th Grade"], "Math", 13, "", false, DAYS, BLOCKS, []⟩,
         ⟨"Bob", ["6th Grade"], "Science", 13, "", false, DAYS, BLOCKS, []⟩]
        rulesB ["6th Grade"] =
      GSResult.halted
        ⟨"infeasible", [],
          "Found " ++ toString (preflight_errors
            [⟨"Alice", ["6th Grade"], "Math", 13, "", false, DAYS, BLOCKS, []⟩,
             ⟨"Bob", ["6th Grade"], "Science", 13, "", false, DAYS, BLOCKS, []⟩]).length ++
            " constraint issue(s) that make scheduling impossible.", 0, 0⟩
        (preflight_errors
          [⟨"Alice", ["6th Grade"], "Math", 13, "", false, DAYS, BLOCKS, []⟩,
           ⟨"Bob", ["6th Grade"], "Science", 13, "", false, DAYS, BLOCKS, []⟩]) ∧
      preflight_errors
        [⟨"Alice", ["6th Grade"], "Math", 13, "", false, DAYS, BLOCKS, []⟩,
         ⟨"Bob", ["6th Grade"], "Science", 13, "", false, DAYS, BLOCKS, []⟩] ≠ []) :=
  ⟨⟨by decide, by decide⟩,
    preflight_violation_infeasible teachersB _ rulesB ["6th Grade"]
      (by decide) (by decide) (by decide) (by decide)
      (Or.inr (Or.inr (Or.inl (by decide))))⟩

/-! ## C5: grade exclusivity with the elective exception -/

/-- The spec's grade-exclusivity property for one grade: non-elective
sessions covering the grade take pairwise distinct slots (sessions being
distinguished by their ids), and every non-elective session covering the
grade differs from every elective session covering it.  Nothing is
required between two electives. -/
def grade_exclusive (sessions : List Session) (g : String) (assign : Nat → Nat) : Prop :=
  (∀ s1 ∈ sessions, ∀ s2 ∈ sessions,
    s1.is_elective = false → s2.is_elective = false →
    g ∈ s1.grades → g ∈ s2.grades → s1.id ≠ s2.id →
    assign s1.id ≠ assign s2.id) ∧
  (∀ s1 ∈ sessions, ∀ s2 ∈ sessions,
    s1.is_elective = false → s2.is_elective = true →
    g ∈ s1.grades → g ∈ s2.grades →
    assign s1.id ≠ assign s2.id)

instance (sessions : List Session) (g : String) (assign : Nat → Nat) :
    Decidable (grade_exclusive sessions g assign) := by
  unfold grade_exclusive
  refine @instDecidableAnd _ _ ?_ ?_ <;> infer_instance

/-- C5: over session lists with distinct ids (as `build_sessions`
produces), an assignment satisfies the Hard Constraint 2 block emitted to
the solving service — whose returned assignments satisfy all emitted
constraints — exactly when, for every grade, the non-elective sessions
covering it take pairwise distinct slots and differ from every elective
covering it; the backward direction shows elective-elective coincidences
are permitted (they are never constrained). -/
theorem grade_constraints_iff_exclusive (sessions : List Session)
    (active_grades : List String) (assign : Nat → Nat)
    (hids : (sessions.map (·.id)).Nodup) :
    hc2_sat sessions active_grades assign ↔
      ∀ g ∈ active_grades, grade_exclusive sessions g assign := by
  have hpw : List.Pairwise (fun s1 s2 : Session => s1.id ≠ s2.id) sessions := by
    rw [List.Nodup, List.pairwise_map] at hids
    exact hids
  unfold hc2_sat
  apply forall₂_congr
  intro g _
  unfold hc2_for_grade grade_exclusive
  constructor
  · rintro ⟨hreg, hrege⟩
    constructor
    · intro s1 h1 s2 h2 he1 he2 hg1 hg2 hne
      have hm1 : s1 ∈ regular_sessions_of sessions g := by
        simp [regular_sessions_of, List.mem_filter, h1, hg1, he1]
      have hm2 : s2 ∈ regular_sessions_of sessions g := by
        simp [regular_sessions_of, List.mem_filter, h2, hg2, he2]
      have hsymm : Symmetric (fun s1 s2 : Session => assign s1.id ≠ assign s2.id) :=
        fun _ _ h => h.symm
      exact hreg.forall hsymm hm1 hm2 (fun hEq => hne (hEq ▸ rfl))
    · intro s1 h1 s2 h2 he1 he2 hg1 hg2
      refine hrege s1 ?_ s2 ?_
      · simp [regular_sessions_of, List.mem_filter, h1, hg1, he1]
      · simp [elective_sessions_of, List.mem_filter, h2, hg2, he2]
  · rintro ⟨hreg, hrege⟩
    constructor
    · have hsub : List.Pairwise (fun s1 s2 : Session => s1.id ≠ s2.id)
          (regular_sessions_of sessions g) :=
        hpw.sublist (List.filter_sublist sessions)
      refine hsub.imp_of_mem ?_
      intro s1 s2 h1 h2 hne
      rw [regular_sessions_of, List.mem_filter] at h1 h2
      obtain ⟨hm1, hp1⟩ := h1
      obtain ⟨hm2, hp2⟩ := h2
      simp only [Bool.and_eq_true, decide_eq_true_eq, Bool.not_eq_true'] at hp1 hp2
      exact hreg s1 hm1 s2 hm2 hp1.2 hp2.2 hp1.1 hp2.1 hne
    · intro s1 h1 s2 h2
      rw [regular_sessions_of, List.mem_filter] at h1
      rw [elective_sessions_of, List.mem_filter] at h2
      obtain ⟨hm1, hp1⟩ := h1
      obtain ⟨hm2, hp2⟩ := h2
      simp only [Bool.and_eq_true, decide_eq_true_eq, Bool.not_eq_true'] at hp1 hp2
      exact hrege s1 hm1 s2 hm2 hp1.2 hp2.2 hp1.1 hp2.1

/-- Two regular, two elective sessions all covering 6th Grade; the two
electives share slot 2. -/
def sessionsC5 : List Session :=
  [⟨0, "Alice", ["6th Grade"], "6th Grade", "Math", [0, 1, 2], false, false⟩,
   ⟨1, "Bob", ["6th Grade"], "6th Grade", "Science", [0, 1, 2], false, false⟩,
   ⟨2, "Cara", ["6th Grade"], "6th Grade", "Art", [2], true, true⟩,
   ⟨3, "Dan", ["6th Grade"], "6th Grade", "Music", [2], true, true⟩]

def assignC5 : Nat → Nat := fun n => if n = 3 then 2 else n

/-- Witness for C5: a concrete assignment satisfying the emitted grade
constraints, with the two electives deliberately sharing a slot. -/
theorem grade_constraints_iff_exclusive_witness :
    ((sessionsC5.map (·.id)).Nodup ∧ hc2_sat sessionsC5 ["6th Grade"] assignC5 ∧
      assignC5 2 = assignC5 3) ∧
    (∀ g ∈ ["6th Grade"], grade_exclusive sessionsC5 g assignC5) :=
  ⟨⟨by decide, by decide, by decide⟩,
    (grade_constraints_iff_exclusive sessionsC5 ["6th Grade"] assignC5 (by decide)).mp
      (by decide)⟩

/-! ## C6: the rebuilt grade grid versus the teacher grids -/

/-- The claim's reading of grid consistency for one teacher cell: a
teaching entry (not `OPEN`, not `Study Hall`) is reflected, for every
grade its display parses to, as that teacher and subject in the grade
grid. -/
def covered_ok (gs : GradeSchedules) (t : String) (grades : List String) (day : String)
    (block : Nat) : Cell → Prop
  | none => True
  | some entry =>
    entry.2 = "OPEN" ∨ entry.2 = "Study Hall" ∨
      ∀ g ∈ parse_grades_from_database entry.1 grades, gs g day block = some (t, entry.2)

instance (gs : GradeSchedules) (t : String) (grades : List String) (day : String)
    (block : Nat) (c : Cell) : Decidable (covered_ok gs t grades day block c) := by
  cases c <;> (unfold covered_ok; infer_instance)

/-- The claim: for every teacher-grid cell and every grade it covers, the
grade grid at the same day and block records that teacher and subject. -/
def teacher_cells_reflected (teacher_schedules : List (String × Grid))
    (grades : List String) (gs : GradeSchedules) : Prop :=
  ∀ p ∈ teacher_schedules, ∀ day ∈ DAYS, ∀ block ∈ BLOCKS,
    covered_ok gs p.1 grades day block (p.2 day block)

instance (teacher_schedules : List (String × Grid)) (grades : List String)
    (gs : GradeSchedules) :
    Decidable (teacher_cells_reflected teacher_schedules grades gs) := by
  unfold teacher_cells_reflected; infer_instance

/-- Every non-empty cell of a grade grid is a faithful copy of a cell of
the named teacher's own grid: that teacher's grid holds, at the same day
and block, a teaching entry with the same subject whose grade display
parses to the grade. -/
def grade_cells_sourced (teacher_schedules : List (String × Grid)) (grades : List String)
    (gs : GradeSchedules) : Prop :=
  ∀ g day block t subj, gs g day block = some (t, subj) →
    ∃ gr, (t, gr) ∈ teacher_schedules ∧ ∃ gd, gr day block = some (gd, subj) ∧
      subj ≠ "OPEN" ∧ subj ≠ "Study Hall" ∧ g ∈ parse_grades_from_database gd grades

theorem foldl_invariant {α β : Type} (P : β → Prop) (f : β → α → β) :
    ∀ (l : List α) (b : β), P b → (∀ b x, x ∈ l → P b → P (f b x)) → P (l.foldl f b) := by
  intro l
  induction l with
  | nil => intro b hb _; exact hb
  | cons x rest ih =>
    intro b hb hstep
    exact ih (f b x) (hstep b x (List.mem_cons_self x rest) hb)
      (fun b' y hy => hstep b' y (List.mem_cons_of_mem x hy))

theorem sourced_gs_set (teacher_schedules : List (String × Grid)) (grades : List String)
    (gs : GradeSchedules) (hgs : grade_cells_sourced teacher_schedules grades gs)
    (g0 day0 : String) (block0 : Nat) (t0 subj0 : String)
    (hsrc : ∃ gr, (t0, gr) ∈ teacher_schedules ∧ ∃ gd, gr day0 block0 = some (gd, subj0) ∧
      subj0 ≠ "OPEN" ∧ subj0 ≠ "Study Hall" ∧ g0 ∈ parse_grades_from_database gd grades) :
    grade_cells_sourced teacher_schedules grades
      (gs_set gs g0 day0 block0 (some (t0, subj0))) := by
  intro g day block t subj hcell
  unfold gs_set grid_set at hcell
  by_cases hg : g = g0
  · rw [if_pos hg] at hcell
    by_cases hdb : day = day0 ∧ block = block0
    · rw [if_pos hdb] at hcell
      obtain ⟨heq1, heq2⟩ := Prod.mk.injEq .. ▸ Option.some.injEq .. ▸ hcell
      subst hg
      obtain ⟨hd, hb⟩ := hdb
      subst hd; subst hb
      rcases hsrc with ⟨gr, hmem, gd, hgd, hns⟩
      exact ⟨gr, heq1 ▸ hmem, gd, heq2 ▸ hgd, heq2 ▸ hns.1, heq2 ▸ hns.2.1, hns.2.2⟩
    · rw [if_neg hdb] at hcell
      exact hgs g day block t subj hcell
  · rw [if_neg hg] at hcell
    exact hgs g day block t subj hcell

/-- C6 (amended): after the rebuild, every non-empty grade cell is copied
from the corresponding cell of the teacher it names. -/
theorem rebuild_grade_schedules_sourced (teacher_schedules : List (String × Grid))
    (grades : List String) :
    grade_cells_sourced teacher_schedules grades
      (rebuild_grade_schedules teacher_schedules grades) := by
  unfold rebuild_grade_schedules
  apply foldl_invariant (grade_cells_sourced teacher_schedules grades)
  · intro g day block t subj h
    exact absurd h (by simp [empty_grid])
  · intro gs tp htp hgs
    apply foldl_invariant (grade_cells_sourced teacher_schedules grades)
    · exact hgs
    · intro gs2 day hday hgs2
      apply foldl_invariant (grade_cells_sourced teacher_schedules grades)
      · exact hgs2
      · intro gs3 block hblock hgs3
        rcases hcell : tp.2 day block with _ | entry
        · simpa [hcell] using hgs3
        · simp only [hcell]
          by_cases hopen : entry.2 = "OPEN"
          · simpa [hopen] using hgs3
          · by_cases hsh : entry.2 = "Study Hall"
            · simp only [if_neg hopen, if_pos hsh]
              exact hgs3
            · simp only [if_neg hopen, if_neg hsh]
              apply foldl_invariant (grade_cells_sourced teacher_schedules grades)
              · exact hgs3
              · intro gs4 g hgmem hgs4
                apply sourced_gs_set teacher_schedules grades gs4 hgs4
                exact ⟨tp.2, (by simpa using htp), entry.1,
                  (by simpa using hcell), hopen, hsh, hgmem⟩

def gridC6 : Grid := fun d b => if d = "Mon" ∧ b = 1 then some ("6th Grade", "Math") else none

/-- Alice and Bob both teach 6th Grade Math at Mon block 1 (the co-taught
shape the solver's Hard Constraint 4 pins to the same slot). -/
def tsC6 : List (String × Grid) := [("Alice", gridC6), ("Bob", gridC6)]

/-- Counterexample to C6: the rebuild writes grade cells in teacher
iteration order, so Bob's entry overwrites Alice's; Alice's teacher cell
covers 6th Grade yet the rebuilt grade grid records Bob there, refuting
"for every teacher-grid cell and every grade it covers, the grade grid at
the same day and block records that teacher and subject". -/
theorem rebuild_overwrite_counterexample :
    rebuild_grade_schedules tsC6 ["6th Grade"] "6th Grade" "Mon" 1 = some ("Bob", "Math") ∧
      ¬ teacher_cells_reflected tsC6 ["6th Grade"]
        (rebuild_grade_schedules tsC6 ["6th Grade"]) := by
  refine ⟨by decide, by decide⟩

/-! ## C8: the most-constrained-first ordering of `build_sessions` -/

theorem tupLe_trans (a b c : Nat × ℚ × Nat) (h1 : tupLe a b) (h2 : tupLe b c) :
    tupLe a c := by
  unfold tupLe at *
  rcases h1 with h1 | ⟨e1, h1⟩ <;> rcases h2 with h2 | ⟨e2, h2⟩
  · exact Or.inl (h1.trans h2)
  · exact Or.inl (e2 ▸ h1)
  · exact Or.inl (e1 ▸ h2)
  · refine Or.inr ⟨e1.trans e2, ?_⟩
    rcases h1 with h1 | ⟨f1, h1⟩ <;> rcases h2 with h2 | ⟨f2, h2⟩
    · exact Or.inl (h1.trans h2)
    · exact Or.inl (f2 ▸ h1)
    · exact Or.inl (f1 ▸ h2)
    · exact Or.inr ⟨f1.trans f2, h1.trans h2⟩

theorem tupLe_total (a b : Nat × ℚ × Nat) : tupLe a b ∨ tupLe b a := by
  unfold tupLe
  rcases lt_trichotomy a.1 b.1 with h | h | h
  · exact Or.inl (Or.inl h)
  · rcases lt_trichotomy a.2.1 b.2.1 with h2 | h2 | h2
    · exact Or.inl (Or.inr ⟨h, Or.inl h2⟩)
    · rcases le_total a.2.2 b.2.2 with h3 | h3
      · exact Or.inl (Or.inr ⟨h, Or.inr ⟨h2, h3⟩⟩)
      · exact Or.inr (Or.inr ⟨h.symm, Or.inr ⟨h2.symm, h3⟩⟩)
    · exact Or.inr (Or.inr ⟨h.symm, Or.inl h2⟩)
  · exact Or.inr (Or.inl h)

theorem assign_ids_length (n : Nat) (l : List Session) :
    (assign_ids n l).length = l.length := by
  induction l generalizing n with
  | nil => rfl
  | cons s rest ih => simp [assign_ids, ih]

theorem assign_ids_map_id (n : Nat) (l : List Session) :
    (assign_ids n l).map (·.id) = List.range' n l.length := by
  induction l generalizing n with
  | nil => rfl
  | cons s rest ih => simp [assign_ids, setId, ih, List.range']

theorem mem_assign_ids {s : Session} (n : Nat) (l : List Session)
    (h : s ∈ assign_ids n l) : ∃ s' ∈ l, ∃ i, s = setId s' i := by
  induction l generalizing n with
  | nil => simp [assign_ids] at h
  | cons x rest ih =>
    rcases List.mem_cons.mp h with h | h
    · exact ⟨x, List.mem_cons_self x rest, n, h⟩
    · obtain ⟨s', hs', i, hi⟩ := ih (n + 1) h
      exact ⟨s', List.mem_cons_of_mem x hs', i, hi⟩

theorem assign_ids_pairwise (R : Session → Session → Prop)
    (hR : ∀ s t i j, R s t → R (setId s i) (setId t j)) :
    ∀ (n : Nat) (l : List Session), List.Pairwise R l →
      List.Pairwise R (assign_ids n l) := by
  intro n l
  induction l generalizing n with
  | nil => intro _; exact List.Pairwise.nil
  | cons s rest ih =>
    intro hp
    rcases List.pairwise_cons.mp hp with ⟨hhead, htail⟩
    refine List.pairwise_cons.mpr ⟨?_, ih (n + 1) htail⟩
    intro t ht
    obtain ⟨t', ht', i, rfl⟩ := mem_assign_ids (n + 1) rest ht
    exact hR s t' n i (hhead t' ht')

/-- The ordering of the claim: fixed sessions strictly first; when the
fixedness flags agree, ascending per-teacher constraint score
`-(session count) / (average domain size)`, then ascending own domain
size. -/
def claim_order (classes : List ClassEntry) (s1 s2 : Session) : Prop :=
  (s1.is_fixed = true ∧ s2.is_fixed = false) ∨
  (s1.is_fixed = s2.is_fixed ∧
    (constraint_score classes s1.teacher < constraint_score classes s2.teacher ∨
      (constraint_score classes s1.teacher = constraint_score classes s2.teacher ∧
        s1.valid_slots.length ≤ s2.valid_slots.length)))

theorem tupLe_sort_key_iff (classes : List ClassEntry) (s1 s2 : Session) :
    tupLe (sort_key classes s1) (sort_key classes s2) ↔ claim_order classes s1 s2 := by
  unfold tupLe claim_order sort_key
  cases h1 : s1.is_fixed <;> cases h2 : s2.is_fixed <;> simp [h1, h2]

/-- C8: `build_sessions` returns its sessions sorted by the claim's order
(in particular every fixed session precedes every non-fixed one, and
among sessions of equal fixedness the per-teacher constraint score and
then the domain size decide), with ids reassigned sequentially
`0, 1, 2, ...` over the final order. -/
theorem build_sessions_sorted_ids (classes : List ClassEntry)
    (locked_grade_slots : Option (List (String × List Nat))) (grades : List String)
    (locked_grade_subject_days : Option (List ((String × String) × List Nat))) :
    List.Pairwise (claim_order classes)
      (build_sessions classes locked_grade_slots grades locked_grade_subject_days) ∧
    (build_sessions classes locked_grade_slots grades
        locked_grade_subject_days).map (·.id) =
      List.range (build_sessions classes locked_grade_slots grades
        locked_grade_subject_days).length := by
  have htrans : ∀ a b c : Session, sessLe classes a b = true → sessLe classes b c = true →
      sessLe classes a c = true := by
    intro a b c h1 h2
    exact decide_eq_true
      (tupLe_trans _ _ _ (of_decide_eq_true h1) (of_decide_eq_true h2))
  have htotal : ∀ a b : Session, (sessLe classes a b || sessLe classes b a) = true := by
    intro a b
    rcases tupLe_total (sort_key classes a) (sort_key classes b) with h | h
    · simp [sessLe, h]
    · simp [sessLe, h]
  constructor
  · unfold build_sessions
    apply assign_ids_pairwise _ (fun _ _ _ _ h => h)
    have hsorted := List.sorted_mergeSort htrans htotal
      (classes.flatMap (sessions_of_class classes locked_grade_slots grades
        locked_grade_subject_days))
    exact hsorted.imp (fun h => (tupLe_sort_key_iff classes _ _).mp (of_decide_eq_true h))
  · unfold build_sessions
    rw [assign_ids_map_id, assign_ids_length, List.range_eq_range']

/-! ## C7: valid-slot domains of non-fixed classes -/

/-- A fixed elective covering one of the class's grades consumes the
slot. -/
def blocked_by_fixed_elective (classes : List ClassEntry) (cls : ClassEntry)
    (slot : Nat) : Prop :=
  ∃ e ∈ classes, e.is_elective = true ∧
    (∃ db ∈ e.fixed_slots, fixed_slot_of db.1 db.2 = some slot) ∧
    ∃ g ∈ cls.grades, g ∈ e.grades

/-- A locked teacher's class for one of the class's grades consumes the
slot (empty when the locked input is not supplied). -/
def blocked_by_locked_slot (locked_grade_slots : Option (List (String × List Nat)))
    (cls : ClassEntry) (slot : Nat) : Prop :=
  ∃ g ∈ cls.grades, slot ∈
    (match locked_grade_slots with
     | some m => lookupListD m g
     | none => ([] : List Nat))

/-- A locked teacher already teaches this subject to one of the class's
grades on the slot's day. -/
def blocked_by_locked_day
    (locked_grade_subject_days : Option (List ((String × String) × List Nat)))
    (cls : ClassEntry) (slot : Nat) : Prop :=
  ∃ g ∈ cls.grades, slot / 5 ∈
    (match locked_grade_subject_days with
     | some m => lookupListD m (g, cls.subject)
     | none => ([] : List Nat))

instance (classes : List ClassEntry) (cls : ClassEntry) (slot : Nat) :
    Decidable (blocked_by_fixed_elective classes cls slot) := by
  unfold blocked_by_fixed_elective; infer_instance

instance (lgs : Option (List (String × List Nat))) (cls : ClassEntry) (slot : Nat) :
    Decidable (blocked_by_locked_slot lgs cls slot) := by
  unfold blocked_by_locked_slot; infer_instance

instance (lgsd : Option (List ((String × String) × List Nat))) (cls : ClassEntry)
    (slot : Nat) : Decidable (blocked_by_locked_day lgsd cls slot) := by
  unfold blocked_by_locked_day; infer_instance

/-- The claim's domain: the availability cross-product minus every slot
consumed by a fixed elective covering one of the class's grades, minus
locked-teacher slots, minus locked same-subject days. -/
def spec_domain (classes : List ClassEntry)
    (locked_grade_slots : Option (List (String × List Nat)))
    (locked_grade_subject_days : Option (List ((String × String) × List Nat)))
    (cls : ClassEntry) : List Nat :=
  (get_valid_slots cls.available_days cls.available_blocks).filter (fun slot =>
    !(decide (blocked_by_fixed_elective classes cls slot)) &&
    !(decide (blocked_by_locked_slot locked_grade_slots cls slot)) &&
    !(decide (blocked_by_locked_day locked_grade_subject_days cls slot)))

theorem mem_elective_block_fn {e : ClassEntry} {g : String} {slot : Nat} :
    (slot ∈ (if e.is_elective && !e.fixed_slots.isEmpty then
        e.fixed_slots.filterMap (fun db =>
          match fixed_slot_of db.1 db.2 with
          | some s => if g ∈ e.grades then some s else none
          | none => none)
      else [])) ↔
    (e.is_elective = true ∧ g ∈ e.grades ∧
      ∃ db ∈ e.fixed_slots, fixed_slot_of db.1 db.2 = some slot) := by
  constructor
  · intro hmem
    split at hmem
    · next hcond =>
      rw [List.mem_filterMap] at hmem
      obtain ⟨db, hdb, hf⟩ := hmem
      rcases hfs : fixed_slot_of db.1 db.2 with _ | s
      · rw [hfs] at hf; simp at hf
      · rw [hfs] at hf
        dsimp only at hf
        by_cases hge : g ∈ e.grades
        · rw [if_pos hge] at hf
          obtain rfl : s = slot := Option.some.inj hf
          simp only [Bool.and_eq_true] at hcond
          exact ⟨hcond.1, hge, db, hdb, hfs⟩
        · rw [if_neg hge] at hf; cases hf
    · next => simp at hmem
  · rintro ⟨hel, hge, db, hdb, hfs⟩
    have hne : e.fixed_slots ≠ [] := List.ne_nil_of_mem hdb
    rw [if_pos (by simp [hel, List.isEmpty_iff, hne])]
    rw [List.mem_filterMap]
    refine ⟨db, hdb, ?_⟩
    rw [hfs]
    dsimp only
    rw [if_pos hge]

theorem mem_grade_blocked_slots {classes : List ClassEntry} {grades : List String}
    {g : String} {slot : Nat} :
    slot ∈ grade_blocked_slots classes grades g ↔
      g ∈ grades ∧ ∃ e ∈ classes, e.is_elective = true ∧ g ∈ e.grades ∧
        ∃ db ∈ e.fixed_slots, fixed_slot_of db.1 db.2 = some slot := by
  unfold grade_blocked_slots
  by_cases hg : g ∈ grades
  · rw [if_pos hg]
    simp only [List.mem_flatMap, hg, true_and]
    constructor
    · rintro ⟨e, he, hmem⟩
      obtain ⟨hel, hge, hdb⟩ := mem_elective_block_fn.mp hmem
      exact ⟨e, he, hel, hge, hdb⟩
    · rintro ⟨e, he, hel, hge, hdb⟩
      exact ⟨e, he, mem_elective_block_fn.mpr ⟨hel, hge, hdb⟩⟩
  · rw [if_neg hg]
    simp [hg]

theorem cond_filter_eq (l bl : List Nat) (q : Nat → Bool)
    (hq : bl = [] → ∀ s, q s = true) :
    (if bl.isEmpty then l else l.filter q) = l.filter q := by
  split
  · next h =>
    rw [List.isEmpty_iff] at h
    exact (List.filter_eq_self.mpr (fun a _ => hq h a)).symm
  · next => rfl

/-- The blocked list built by `class_domain` holds exactly the slots of
the claim's first two subtractions. -/
theorem mem_class_blocked {classes : List ClassEntry} {grades : List String}
    {lgs : Option (List (String × List Nat))} {cls : ClassEntry} {slot : Nat}
    (hsub : ∀ g ∈ cls.grades, g ∈ grades) :
    slot ∈ class_blocked_list classes lgs grades cls ↔
      blocked_by_fixed_elective classes cls slot ∨
        blocked_by_locked_slot lgs cls slot := by
  unfold class_blocked_list
  rw [List.mem_flatMap]
  constructor
  · rintro ⟨g, hgmem, hmem⟩
    rcases List.mem_append.mp hmem with hmem | hmem
    · obtain ⟨-, e, he, hel, hge, hdb⟩ := mem_grade_blocked_slots.mp hmem
      exact Or.inl ⟨e, he, hel, hdb, g, hgmem, hge⟩
    · exact Or.inr ⟨g, hgmem, hmem⟩
  · rintro (⟨e, he, hel, hdb, g, hgmem, hge⟩ | ⟨g, hgmem, hmem⟩)
    · exact ⟨g, hgmem, List.mem_append.mpr
        (Or.inl (mem_grade_blocked_slots.mpr ⟨hsub g hgmem, e, he, hel, hge, hdb⟩))⟩
    · exact ⟨g, hgmem, List.mem_append.mpr (Or.inr hmem)⟩

theorem mem_class_blocked_days {m : List ((String × String) × List Nat)}
    {cls : ClassEntry} {slot : Nat} :
    slot / 5 ∈ class_blocked_days m cls ↔ blocked_by_locked_day (some m) cls slot := by
  unfold class_blocked_days blocked_by_locked_day
  rw [List.mem_flatMap]

theorem contains_eq_decide_mem (l : List Nat) (a : Nat) :
    l.contains a = decide (a ∈ l) := by
  by_cases hm : a ∈ l
  · rw [decide_eq_true hm]
    exact List.elem_iff.mpr hm
  · rw [decide_eq_false hm]
    rcases h : l.contains a with _ | _
    · rfl
    · exact absurd (List.elem_iff.mp h) hm

/-- For a non-elective class with grades drawn from the configured grade
list, the domain `build_sessions` computes equals the claim's single
filter. -/
theorem class_domain_eq_spec (classes : List ClassEntry)
    (lgs : Option (List (String × List Nat))) (grades : List String)
    (lgsd : Option (List ((String × String) × List Nat))) (cls : ClassEntry)
    (hel : cls.is_elective = false) (hg : cls.grades ≠ [])
    (hsub : ∀ g ∈ cls.grades, g ∈ grades) :
    class_domain classes lgs grades lgsd cls = spec_domain classes lgs lgsd cls := by
  unfold class_domain spec_domain
  rw [if_pos (by simp [hel, List.isEmpty_iff, hg])]
  dsimp only
  rw [cond_filter_eq _ _ _ (fun hnil s => by rw [hnil]; rfl)]
  rcases lgsd with _ | m
  · apply List.filter_congr
    intro s _
    rw [contains_eq_decide_mem]
    have hday : ¬ blocked_by_locked_day none cls s := by
      unfold blocked_by_locked_day
      simp
    by_cases h1 : blocked_by_fixed_elective classes cls s <;>
      by_cases h2 : blocked_by_locked_slot lgs cls s <;>
        simp [mem_class_blocked hsub, h1, h2, hday]
  · dsimp only
    rw [cond_filter_eq _ _ _ (fun hnil s => by rw [hnil]; rfl), List.filter_filter]
    apply List.filter_congr
    intro s _
    rw [contains_eq_decide_mem, contains_eq_decide_mem]
    by_cases h1 : blocked_by_fixed_elective classes cls s <;>
      by_cases h2 : blocked_by_locked_slot lgs cls s <;>
        by_cases h3 : blocked_by_locked_day (some m) cls s <;>
          simp [mem_class_blocked hsub, mem_class_blocked_days, h1, h2, h3]

/-- Every non-fixed session of `build_sessions` comes from a class
without fixed slots and carries that class's computed domain. -/
theorem build_sessions_mem_nonfixed (classes : List ClassEntry)
    (lgs : Option (List (String × List Nat))) (grades : List String)
    (lgsd : Option (List ((String × String) × List Nat))) (s : Session)
    (hs : s ∈ build_sessions classes lgs grades lgsd) (hnf : s.is_fixed = false) :
    ∃ cls ∈ classes, cls.fixed_slots = [] ∧ s.teacher = cls.teacher ∧
      s.subject = cls.subject ∧ s.grades = cls.grades ∧
      s.is_elective = cls.is_elective ∧
      s.valid_slots = class_domain classes lgs grades lgsd cls := by
  unfold build_sessions at hs
  obtain ⟨s', hs', i, rfl⟩ := mem_assign_ids _ _ hs
  rw [(List.mergeSort_perm _ _).mem_iff, List.mem_flatMap] at hs'
  obtain ⟨cls, hcls, hmem⟩ := hs'
  unfold sessions_of_class at hmem
  by_cases hfix : cls.fixed_slots.isEmpty
  · rw [if_pos hfix] at hmem
    obtain ⟨-, rfl⟩ := List.mem_replicate.mp hmem
    exact ⟨cls, hcls, List.isEmpty_iff.mp hfix, rfl, rfl, rfl, rfl, rfl⟩
  · exfalso
    rw [if_neg hfix, List.mem_filterMap] at hmem
    obtain ⟨db, hdb, hf⟩ := hmem
    rcases hfs : fixed_slot_of db.1 db.2 with _ | slot
    · rw [hfs] at hf; cases hf
    · rw [hfs] at hf
      have hs'eq := Option.some.inj hf
      rw [← hs'eq] at hnf
      simp [setId] at hnf

/-- C7: every non-fixed session belongs to a fixed-slot-free class,
matching it in teacher, subject, grades and electiveness; an elective
class's sessions keep the unfiltered availability cross-product, while a
non-elective class with grades (drawn from the configured grade list)
gets the cross-product minus fixed-elective slots, locked-teacher slots
and locked same-subject days. -/
theorem session_domain_spec (classes : List ClassEntry)
    (lgs : Option (List (String × List Nat))) (grades : List String)
    (lgsd : Option (List ((String × String) × List Nat))) (s : Session)
    (hs : s ∈ build_sessions classes lgs grades lgsd) (hnf : s.is_fixed = false) :
    ∃ cls ∈ classes, cls.fixed_slots = [] ∧ s.teacher = cls.teacher ∧
      s.subject = cls.subject ∧ s.grades = cls.grades ∧
      s.is_elective = cls.is_elective ∧
      (cls.is_elective = true →
        s.valid_slots = get_valid_slots cls.available_days cls.available_blocks) ∧
      (cls.is_elective = false → cls.grades ≠ [] → (∀ g ∈ cls.grades, g ∈ grades) →
        s.valid_slots = spec_domain classes lgs lgsd cls) := by
  obtain ⟨cls, hcls, hfix, ht, hsubj, hgr, hele, hvs⟩ :=
    build_sessions_mem_nonfixed classes lgs grades lgsd s hs hnf
  refine ⟨cls, hcls, hfix, ht, hsubj, hgr, hele, ?_, ?_⟩
  · intro helec
    rw [hvs]
    unfold class_domain
    rw [if_neg (by simp [helec])]
  · intro helec hgne hsubg
    rw [hvs, class_domain_eq_spec classes lgs grades lgsd cls helec hgne hsubg]

/-- Scenario D's input: one elective fixed at (Tues, block 3) covering
grades 6-8, one regular grade-6 class available everywhere. -/
def classesD : List ClassEntry :=
  [⟨"Eve", ["6th Grade", "7th Grade", "8th Grade"], "Art", 1, "6th-8th Elective", true,
    DAYS, BLOCKS, [("Tues", 3)]⟩,
   ⟨"Alice", ["6th Grade"], "Math", 2, "6th Grade", false, DAYS, BLOCKS, []⟩]

def gradesD : List String := ["6th Grade", "7th Grade", "8th Grade"]

/-- The regular class's session as expanded before ordering: its domain
excludes slot 7 = (Tues, block 3). -/
def sessD : Session :=
  ⟨0, "Alice", ["6th Grade"], "6th Grade", "Math",
    [0, 1, 2, 3, 4, 5, 6, 8, 9, 10, 11, 12, 13, 14, 15, 16, 17, 18, 19, 20, 21, 22, 23,
      24], false, false⟩

theorem exists_setId_mem_assign_ids (s' : Session) (l : List Session) (h : s' ∈ l) :
    ∀ n, ∃ i, setId s' i ∈ assign_ids n l := by
  induction l with
  | nil => cases h
  | cons x rest ih =>
    intro n
    rcases List.mem_cons.mp h with rfl | hmem
    · exact ⟨n, List.mem_cons_self _ _⟩
    · obtain ⟨i, hi⟩ := ih hmem (n + 1)
      exact ⟨i, List.mem_cons_of_mem _ hi⟩

/-- Witness for C7 — the spec's Scenario D: a non-fixed session of the
regular grade-6 class is produced whose domain excludes (Tues, block 3),
and the claim's domain description holds of it. -/
theorem session_domain_spec_witness :
    ∃ s, (s ∈ build_sessions classesD none gradesD none ∧ s.is_fixed = false ∧
      s.valid_slots = sessD.valid_slots ∧ (7 : Nat) ∉ s.valid_slots) ∧
      (∃ cls ∈ classesD, cls.fixed_slots = [] ∧ s.teacher = cls.teacher ∧
        s.subject = cls.subject ∧ s.grades = cls.grades ∧
        s.is_elective = cls.is_elective ∧
        (cls.is_elective = true →
          s.valid_slots = get_valid_slots cls.available_days cls.available_blocks) ∧
        (cls.is_elective = false → cls.grades ≠ [] → (∀ g ∈ cls.grades, g ∈ gradesD) →
          s.valid_slots = spec_domain classesD none none cls)) := by
  have hpre : sessD ∈ classesD.flatMap (sessions_of_class classesD none gradesD none) := by
    decide
  have hms : sessD ∈ (classesD.flatMap
      (sessions_of_class classesD none gradesD none)).mergeSort (sessLe classesD) :=
    (List.mergeSort_perm _ _).mem_iff.mpr hpre
  obtain ⟨i, hi⟩ := exists_setId_mem_assign_ids sessD _ hms 0
  have hib : setId sessD i ∈ build_sessions classesD none gradesD none := hi
  exact ⟨setId sessD i, ⟨hib, rfl, rfl,
      (show (7 : Nat) ∉ sessD.valid_slots by decide)⟩,
    session_domain_spec classesD none gradesD none (setId sessD i) hib rfl⟩

end Solver
